import Mathlib

/-!
Verification development for the Netflix ETL pipeline
(`src/extract.py`, `src/transform.py`, `src/pipeline.py`, `src/utils.py`).

The pandas DataFrame is embedded as a `List Row`, where `Row` is a record
holding one `Cell` per column (the 12 raw CSV columns plus every derived
column produced by the transformation passes).  A `Cell` is a tagged value
mirroring the dynamic cell contents a pandas object column can hold here:
missing (NaN/NaT), a string, a number (float columns are modelled by `ℚ`),
a parsed datetime (modelled as a `Nat` encoding `yyyymmdd`), or a boolean.

Library calls are modelled as follows:
* `pd.to_datetime(_, errors = coerce)` on a string is an explicit parameter
  `parse : String → Option Nat` of the pipeline (its parsing table is
  irrelevant to every claim); on an already-parsed datetime column the
  stringify/re-parse round trip of `transform_dates` is the identity, and
  NaN/NaT stays missing.
* `datetime.now().year` is an explicit parameter `currentYear : Nat`.
* `pd.to_numeric(_, errors = coerce)` is modelled for the values that occur:
  numbers pass through, missing stays missing, unsigned integer literals
  parse, anything else coerces to missing.
* `Series.str` accessor methods return missing on non-string cells, exactly
  as pandas does on object columns.
-/

set_option maxRecDepth 10000

namespace NetflixETL

/-- One pandas cell: missing (NaN/NaT), a string, a float (as `ℚ`),
a parsed datetime (encoded `yyyymmdd`), or a boolean. -/
inductive Cell where
  | na : Cell
  | str (s : String) : Cell
  | num (q : ℚ) : Cell
  | date (d : Nat) : Cell
  | boolean (b : Bool) : Cell
deriving DecidableEq

/-- One row of the DataFrame: the 12 raw Netflix CSV columns followed by
every column the transformation passes derive.  Derived columns are
`Cell.na` in a freshly extracted row (pandas adds them during transform;
every pass that writes them overwrites them unconditionally, so modelling
them as always-present-but-missing is faithful, including for
`drop_duplicates`, which compares whole rows). -/
structure Row where
  show_id : Cell
  typ : Cell            -- the CSV column named type
  title : Cell
  director : Cell
  cast : Cell
  country : Cell
  date_added : Cell
  release_year : Cell
  rating : Cell
  duration : Cell
  listed_in : Cell
  description : Cell
  date_added_year : Cell
  date_added_month : Cell
  date_added_day_of_week : Cell
  decade : Cell
  duration_value : Cell
  duration_unit : Cell
  is_movie : Cell
  is_tv_show : Cell
  cast_count : Cell
  director_count : Cell
  country_count : Cell
  listed_in_count : Cell
  content_age_when_added : Cell
  description_length : Cell
  description_word_count : Cell
  rating_category : Cell
  primary_country : Cell
  is_international : Cell
  primary_genre : Cell
  genre_diversity : Cell
deriving DecidableEq

/-- A row with every cell missing. -/
def rowNa : Row :=
  ⟨.na, .na, .na, .na, .na, .na, .na, .na, .na, .na, .na, .na,
   .na, .na, .na, .na, .na, .na, .na, .na, .na, .na, .na, .na,
   .na, .na, .na, .na, .na, .na, .na, .na⟩

/-- A freshly extracted row: the 12 CSV columns, derived columns missing. -/
def mkRawRow (show_id typ title director cast country date_added
    release_year rating duration listed_in description : Cell) : Row :=
  { rowNa with
    show_id := show_id, typ := typ, title := title, director := director,
    cast := cast, country := country, date_added := date_added,
    release_year := release_year, rating := rating, duration := duration,
    listed_in := listed_in, description := description }

/-- Is this cell missing (NaN/NaT)? -/
def Cell.isNa : Cell → Bool
  | .na => true
  | _ => false

/-- Whitespace trim on a character list (both ends), modelling
`str.strip()`. -/
def trimChars (cs : List Char) : List Char :=
  ((cs.dropWhile Char.isWhitespace).reverse.dropWhile Char.isWhitespace).reverse

/-- `str.strip()` on a string. -/
def strTrim (s : String) : String := ⟨trimChars s.data⟩

/-! ## drop_duplicates (keep = first)

`DataFrame.drop_duplicates()` keeps the first occurrence of each distinct
row and drops every later exact duplicate (NaNs compare equal there, as
does `Cell.na = Cell.na` here). -/

/-- Keep the rows not seen before, accumulating the rows already kept. -/
def dedupAux (seen : List Row) : List Row → List Row
  | [] => []
  | r :: rs =>
      if r ∈ seen then dedupAux seen rs
      else r :: dedupAux (r :: seen) rs

/-- Keep the first occurrence of each distinct row, in order. -/
def dedupKeepFirst (l : List Row) : List Row := dedupAux [] l

/-! ## Step 1: clean_basic_data (transform.py lines 54-79) -/

/-- The critical-column test of `clean_basic_data`:
`dropna(subset = [show_id, title, type])` keeps a row iff all three are
present. -/
def keepCritical (r : Row) : Bool :=
  !r.show_id.isNa && !r.title.isNa && !r.typ.isNa

/-- `clean_basic_data`: drop exact duplicates, then drop rows missing any
of show_id, title, type. -/
def clean_basic_data (l : List Row) : List Row :=
  (dedupKeepFirst l).filter keepCritical

/-! ## Step 2: transform_dates (transform.py lines 81-118) -/

/-- The placeholder replacement list used for date_added and duration:
`replace([nan, None, empty], NaN)` (applied after strip there). -/
def isPlaceholder (s : String) : Bool :=
  s = "nan" || s = "None" || s = ""

/-- `astype(str).str.strip()` followed by `replace([nan, None, empty])`
and `pd.to_datetime(errors = coerce)` on one date_added cell.
A missing cell stringifies to a placeholder (or NaT) and comes back
missing; an already-parsed datetime round-trips to itself; a string is
stripped, placeholder-checked and parsed. -/
def toDatetime (parse : String → Option Nat) : Cell → Cell
  | .na => .na
  | .str s =>
      let t := strTrim s
      if isPlaceholder t then .na
      else match parse t with
        | some d => .date d
        | none => .na
  | .date d => .date d
  | _ => .na

/-- `dt.year` on a date cell (dates are encoded `yyyymmdd`). -/
def yearCell : Cell → Cell
  | .date d => .num ((d / 10000 : Nat) : ℚ)
  | _ => .na

/-- `dt.month` on a date cell. -/
def monthCell : Cell → Cell
  | .date d => .num ((d / 100 % 100 : Nat) : ℚ)
  | _ => .na

/-- Zeller's congruence: weekday name of an encoded `yyyymmdd` date,
modelling `dt.day_name()`. -/
def dayOfWeekName (d : Nat) : String :=
  let y : Int := d / 10000
  let m : Int := d / 100 % 100
  let q : Int := d % 100
  let y2 : Int := if m < 3 then y - 1 else y
  let m2 : Int := if m < 3 then m + 12 else m
  let k : Int := y2 % 100
  let j : Int := y2 / 100
  let h : Int := (q + (13 * (m2 + 1)) / 5 + k + k / 4 + j / 4 + 5 * j) % 7
  match h.toNat with
  | 0 => "Saturday"
  | 1 => "Sunday"
  | 2 => "Monday"
  | 3 => "Tuesday"
  | 4 => "Wednesday"
  | 5 => "Thursday"
  | _ => "Friday"

/-- `dt.day_name()` on a date cell. -/
def dayNameCell : Cell → Cell
  | .date d => .str (dayOfWeekName d)
  | _ => .na

/-- Value of a decimal digit character. -/
def digitVal (c : Char) : Nat := c.toNat - 48

/-- Natural number denoted by a list of digit characters. -/
def digitsToNat (cs : List Char) : Nat :=
  cs.foldl (fun acc c => acc * 10 + digitVal c) 0

/-- Unsigned-integer-literal parse, modelling `pd.to_numeric` on the
string values that occur in this dataset. -/
def parseNatLit (s : String) : Option Nat :=
  let t := trimChars s.data
  if t ≠ [] ∧ t.all Char.isDigit then some (digitsToNat t) else none

/-- `pd.to_numeric(errors = coerce)` on one cell. -/
def toNumericCell : Cell → Cell
  | .num q => .num q
  | .boolean b => .num (if b then 1 else 0)
  | .str s => match parseNatLit s with
      | some n => .num (n : ℚ)
      | none => .na
  | _ => .na

/-- The unrealistic-year filter of `transform_dates`: years before 1900 or
more than two years after the current year become missing. -/
def filterYear (currentYear : Nat) : Cell → Cell
  | .num q => if q < 1900 ∨ ((currentYear + 2 : Nat) : ℚ) < q then .na else .num q
  | _ => .na

/-- Floor of `q / 10`, written on the numerator/denominator so that it
evaluates by kernel reduction (`/` on `ℤ` is euclidean division, which
floors here since the divisor is positive). -/
def floorDivTen (q : ℚ) : Int := q.num / (10 * (q.den : Int))

/-- `(release_year // 10) * 10` with float floor-division semantics. -/
def decadeCell : Cell → Cell
  | .num q => .num ((10 * floorDivTen q : Int) : ℚ)
  | _ => .na

/-- `transform_dates` on one row: normalize date_added, derive
year/month/weekday, coerce and range-filter release_year, derive decade. -/
def transform_dates_row (parse : String → Option Nat) (currentYear : Nat)
    (r : Row) : Row :=
  let d := toDatetime parse r.date_added
  let ry := filterYear currentYear (toNumericCell r.release_year)
  { r with
    date_added := d,
    date_added_year := yearCell d,
    date_added_month := monthCell d,
    date_added_day_of_week := dayNameCell d,
    release_year := ry,
    decade := decadeCell ry }

/-- `transform_dates` on the whole table. -/
def transform_dates (parse : String → Option Nat) (currentYear : Nat)
    (l : List Row) : List Row :=
  l.map (transform_dates_row parse currentYear)

/-! ## Step 3: clean_text_columns (transform.py lines 120-146) -/

/-- Text-column cleaning: `astype(str)`, `replace([nan, None], NaN)`,
`str.strip()`, `replace(empty, NaN)` — note the placeholder check happens
BEFORE the strip, so a value like a spaced-out nan survives as the literal
string nan.  Non-string non-missing cells do not occur in the text columns
of this dataset and are treated as missing. -/
def cleanTextCell : Cell → Cell
  | .na => .na
  | .str s =>
      if s = "nan" ∨ s = "None" then .na
      else
        let t := strTrim s
        if t = "" then .na else .str t
  | _ => .na

/-- Duration cleaning: `astype(str).str.strip()` then
`replace([nan, None, empty], NaN)` — here the strip happens BEFORE the
placeholder check. -/
def cleanDurationCell : Cell → Cell
  | .na => .na
  | .str s =>
      let t := strTrim s
      if isPlaceholder t then .na else .str t
  | _ => .na

/-- `clean_text_columns` on one row. -/
def clean_text_columns_row (r : Row) : Row :=
  { r with
    title := cleanTextCell r.title,
    director := cleanTextCell r.director,
    cast := cleanTextCell r.cast,
    country := cleanTextCell r.country,
    rating := cleanTextCell r.rating,
    listed_in := cleanTextCell r.listed_in,
    description := cleanTextCell r.description,
    duration := cleanDurationCell r.duration }

/-- `clean_text_columns` on the whole table. -/
def clean_text_columns (l : List Row) : List Row :=
  l.map clean_text_columns_row

/-! ## Step 4: engineer_features (transform.py lines 148-195) -/

/-- Leftmost maximal digit run of a character list, modelling
`str.extract` with the one-group digits-plus regex: `re.search` finds the
leftmost digit and the greedy plus takes the whole run. -/
def firstDigits : List Char → Option (List Char)
  | [] => none
  | c :: cs =>
      if c.isDigit then some (c :: cs.takeWhile Char.isDigit)
      else firstDigits cs

/-- `str.extract` of the digit run, `.astype(float)`: numeric duration
value of one duration cell. -/
def durationValueCell : Cell → Cell
  | .str s => match firstDigits s.data with
      | some ds => .num ((digitsToNat ds : Nat) : ℚ)
      | none => .na
  | _ => .na

/-- One attempt of the alternation min / Season / Seasons anchored at the
end of the string, tried at the current search position: the token must
consume the entire remaining input (the dollar anchor). -/
def unitAt (cs : List Char) : Option String :=
  if cs = "min".data then some "min"
  else if cs = "Season".data then some "Season"
  else if cs = "Seasons".data then some "Seasons"
  else none

/-- `re.search` of the end-anchored alternation min / Season / Seasons:
try each position left to right, alternatives in order. -/
def searchUnit : List Char → Option String
  | [] => none
  | c :: cs =>
      match unitAt (c :: cs) with
      | some u => some u
      | none => searchUnit cs

/-- `str.extract` of the unit regex on one duration cell. -/
def durationUnitCell : Cell → Cell
  | .str s => match searchUnit s.data with
      | some u => .str u
      | none => .na
  | _ => .na

/-- Number of commas in a string (`str.count` of a comma). -/
def commaCount (s : String) : Nat :=
  (s.data.filter (fun c => c = ',')).length

/-- The list-column count feature: `str.count(comma) + 1`, with missing
cells set to 0 afterwards by the `loc[isna]` assignment. -/
def countCell : Cell → Cell
  | .str s => .num ((commaCount s + 1 : Nat) : ℚ)
  | .na => .num 0
  | _ => .na

/-- NaN-propagating subtraction of two numeric cells
(`date_added_year - release_year`). -/
def subCells : Cell → Cell → Cell
  | .num a, .num b => .num (a - b)
  | _, _ => .na

/-- `str.len()` on one cell. -/
def lenCell : Cell → Cell
  | .str s => .num ((s.data.length : Nat) : ℚ)
  | _ => .na

/-- Number of maximal non-whitespace runs, modelling the length of a
no-argument `str.split()` (which drops empty pieces). -/
def countWords (cs : List Char) : Nat :=
  (cs.foldl
    (fun (p : Nat × Bool) c =>
      if c.isWhitespace then (p.1, false)
      else if p.2 then p else (p.1 + 1, true))
    (0, false)).1

/-- `str.split().str.len()`: number of whitespace-separated words. -/
def wordCountCell : Cell → Cell
  | .str s => .num ((countWords s.data : Nat) : ℚ)
  | _ => .na

/-- The fixed rating-to-category lookup table of `engineer_features`. -/
def ratingLookup (s : String) : Option String :=
  if s = "G" ∨ s = "TV-Y" ∨ s = "TV-Y7" ∨ s = "TV-Y7-FV" then some "Kids"
  else if s = "PG" ∨ s = "TV-G" ∨ s = "TV-PG" then some "Family"
  else if s = "PG-13" ∨ s = "TV-14" then some "Teen"
  else if s = "R" ∨ s = "TV-MA" ∨ s = "NC-17" then some "Adult"
  else none

/-- `rating.map(lookup)` followed by `fillna(Other)`: unmapped and missing
codes both land on Other. -/
def ratingCategoryCell : Cell → Cell
  | .str s => .str ((ratingLookup s).getD "Other")
  | _ => .str "Other"

/-- `engineer_features` on one row. -/
def engineer_features_row (r : Row) : Row :=
  let unit := durationUnitCell r.duration
  { r with
    duration_value := durationValueCell r.duration,
    duration_unit := unit,
    is_movie := .boolean (unit = .str "min"),
    is_tv_show := .boolean (unit = .str "Season" ∨ unit = .str "Seasons"),
    cast_count := countCell r.cast,
    director_count := countCell r.director,
    country_count := countCell r.country,
    listed_in_count := countCell r.listed_in,
    content_age_when_added := subCells (yearCell r.date_added) r.release_year,
    description_length := lenCell r.description,
    description_word_count := wordCountCell r.description,
    rating_category := ratingCategoryCell r.rating }

/-- `engineer_features` on the whole table. -/
def engineer_features (l : List Row) : List Row :=
  l.map engineer_features_row

/-! ## Step 5: process_categorical_data (transform.py lines 197-222)

The `astype(category)` conversions change no cell value and are the
identity here. -/

/-- `str.split(comma).str[0].str.strip()`: the first comma-separated
token is the prefix before the first comma (the whole string when there
is none), then trimmed. -/
def primaryCell : Cell → Cell
  | .str s => .str ⟨trimChars (s.data.takeWhile (fun c => c ≠ ','))⟩
  | _ => .na

/-- `str.contains(comma, na = false)`. -/
def containsCommaCell : Cell → Cell
  | .str s => .boolean (s.data.any (fun c => c = ','))
  | _ => .boolean false

/-- `process_categorical_data` on one row. -/
def process_categorical_data_row (r : Row) : Row :=
  { r with
    primary_country := primaryCell r.country,
    is_international := containsCommaCell r.country,
    primary_genre := primaryCell r.listed_in,
    genre_diversity := countCell r.listed_in }

/-- `process_categorical_data` on the whole table. -/
def process_categorical_data (l : List Row) : List Row :=
  l.map process_categorical_data_row

/-! ## Step 6: final_cleanup (transform.py lines 224-250)

`sort_values([date_added, show_id], na_position = last)` is a stable
lexicographic sort (pandas multi-column sorts go through a stable
lexsort), placing missing keys last in each column.  It is embedded as a
stable insertion sort over an explicit lexicographic key. -/

/-- Sort key of one row: a missing-date flag (missing sorts last), the
date, a missing-id flag, the id. -/
abbrev NetKey : Type := Nat × Nat × Nat × String

/-- Key of a row under `sort_values([date_added, show_id])`. -/
def netflixSortKey (r : Row) : NetKey :=
  let dk : Nat × Nat :=
    match r.date_added with
    | .date d => (0, d)
    | _ => (1, 0)
  let ik : Nat × String :=
    match r.show_id with
    | .str s => (0, s)
    | _ => (1, "")
  (dk.1, dk.2, ik.1, ik.2)

/-- Lexicographic order on sort keys. -/
def keyLe (a b : NetKey) : Prop :=
  a.1 < b.1 ∨ a.1 = b.1 ∧
    (a.2.1 < b.2.1 ∨ a.2.1 = b.2.1 ∧
      (a.2.2.1 < b.2.2.1 ∨ a.2.2.1 = b.2.2.1 ∧ a.2.2.2 ≤ b.2.2.2))

instance keyLeDecidable (a b : NetKey) : Decidable (keyLe a b) := by
  unfold keyLe
  infer_instance

/-- Insert a row into a (sorted) list, before the first element whose key
is at least as large: equal keys keep the incoming (earlier) row first,
which is what makes the sort stable. -/
def insertRow (r : Row) : List Row → List Row
  | [] => [r]
  | x :: xs =>
      if keyLe (netflixSortKey r) (netflixSortKey x) then r :: x :: xs
      else x :: insertRow r xs

/-- Stable insertion sort by the `sort_values` key. -/
def sortRows : List Row → List Row
  | [] => []
  | r :: rs => insertRow r (sortRows rs)

/-- `final_cleanup`: drop duplicates created by earlier passes, sort by
date_added then show_id with missing keys last, reset the index (the
index is not part of this model). -/
def final_cleanup (l : List Row) : List Row :=
  sortRows (dedupKeepFirst l)

/-! ## transform_netflix_data (transform.py lines 7-52) -/

/-- The per-row composite of the four row-mapping passes (steps 2-5). -/
def rowStage (parse : String → Option Nat) (currentYear : Nat) (r : Row) : Row :=
  process_categorical_data_row (engineer_features_row
    (clean_text_columns_row (transform_dates_row parse currentYear r)))

/-- `transform_netflix_data`: fail on an empty (or absent) input, else
apply the six passes in order. -/
def transform_netflix_data (parse : String → Option Nat) (currentYear : Nat)
    (l : List Row) : Option (List Row) :=
  if l = [] then none
  else some (final_cleanup (process_categorical_data (engineer_features
    (clean_text_columns (transform_dates parse currentYear
      (clean_basic_data l))))))

/-! ## Extractor model (extract.py lines 8-60, utils.py lines 46-72)

For the extraction claims only the shape of the parsed CSV matters: its
column list and its row count.  The two `pd.read_csv` attempts (UTF-8,
then Latin-1 on a `UnicodeDecodeError`) are modelled by their outcomes. -/

/-- Shape of a parsed CSV: column names and number of rows. -/
structure CsvTable where
  cols : List String
  nrows : Nat
deriving DecidableEq

/-- Outcome of one `pd.read_csv` attempt: a parsed table, a
`UnicodeDecodeError`, or any other exception. -/
inductive ReadOutcome where
  | ok (t : CsvTable) : ReadOutcome
  | decodeError : ReadOutcome
  | otherError : ReadOutcome

/-- The required Netflix column set (utils.py lines 61-64). -/
def requiredColumns : List String :=
  ["show_id", "type", "title", "director", "cast", "country",
   "date_added", "release_year", "rating", "duration", "listed_in",
   "description"]

/-- `validar_dados` (utils.py lines 46-57): the table must be non-empty. -/
def validar_dados (t : CsvTable) : Bool :=
  t.nrows ≠ 0

/-- `validar_dados_netflix` (utils.py lines 59-72): every required column
must be present. -/
def validar_dados_netflix (t : CsvTable) : Bool :=
  requiredColumns.all (fun c => c ∈ t.cols)

/-- `extract_netflix_data` (extract.py lines 8-60): missing file fails;
a UTF-8 read validates non-emptiness and the column set; on a
`UnicodeDecodeError` the Latin-1 retry returns whatever it parses with no
validation at all; any other exception fails. -/
def extract_netflix_data (fileExists : Bool)
    (utf8 latin1 : ReadOutcome) : Option CsvTable :=
  if !fileExists then none
  else
    match utf8 with
    | .ok t =>
        if !validar_dados t then none
        else if !validar_dados_netflix t then none
        else some t
    | .decodeError =>
        match latin1 with
        | .ok t => some t
        | _ => none
    | .otherError => none

/-! ## Orchestrator model (pipeline.py lines 44-200,
visualizations.py lines 259-400)

`run_full_pipeline` runs extract, transform, load, report in order,
returning false at the first failing stage, then runs
`_create_pipeline_report` and only afterwards assigns the end timestamp.
The extract/transform/load stage outcomes are modelled by booleans.  For
the reporting stage the model keeps the exception structure: the bodies
of `create_netflix_dashboard` and `generate_analysis_report` either
complete with an artifact path or raise; each wraps its whole body in
try/except and returns None on any exception, and `_generate_reports`
wraps both calls in its own try/except and returns False if an exception
reaches it.  `_create_pipeline_report` subtracts the start timestamp
from the end timestamp outside any local try, so it raises when the end
timestamp is still unset. -/

/-- Outcome of the body of one visualization/report builder: either it
produces an artifact path or it raises somewhere inside. -/
inductive VizResult where
  | ok (path : String) : VizResult
  | raises (msg : String) : VizResult

/-- `create_netflix_dashboard` (visualizations.py lines 259-309): the
whole body sits inside try/except, so a raise is caught, logged and
converted to None.  The call itself never raises. -/
def create_netflix_dashboard : VizResult → Option String
  | .ok p => some p
  | .raises _ => none

/-- `generate_analysis_report` (visualizations.py lines 311-400): same
catch-all shape. -/
def generate_analysis_report : VizResult → Option String
  | .ok p => some p
  | .raises _ => none

/-- A call that can in principle raise is an `Except`: `error` is an
escaped exception, `ok` a normal return. -/
def callDashboard (d : VizResult) : Except String (Option String) :=
  Except.ok (create_netflix_dashboard d)

/-- The report call as an `Except`, like `callDashboard`. -/
def callReport (r : VizResult) : Except String (Option String) :=
  Except.ok (generate_analysis_report r)

/-- `_generate_reports` (pipeline.py lines 147-167): call the dashboard
builder, then the report builder, then return True; if either call lets
an exception escape, catch it and return False. -/
def generate_reports (d r : VizResult) : Bool :=
  match callDashboard d with
  | .error _ => false
  | .ok _ =>
      match callReport r with
      | .error _ => false
      | .ok _ => true

/-- `_create_pipeline_report` (pipeline.py lines 169-200): line 171
computes `pipeline_end_time - pipeline_start_time` outside any local
try/except (only the file write at lines 192-200 is guarded), so when
the end timestamp has not been assigned yet this subtraction raises a
`TypeError`; otherwise the method completes. -/
def create_pipeline_report (endTimeSet : Bool) : Except String Unit :=
  if endTimeSet then Except.ok () else Except.error "TypeError"

/-- `run_full_pipeline` (pipeline.py lines 44-88): extract, transform,
load, report, in order, stopping with failure at the first stage that
reports failure; then step 5 calls `_create_pipeline_report` at line 75,
at which point `pipeline_end_time` is still `None` — it is assigned only
at line 77, after the call — so the call is made with the end timestamp
unset.  An exception escaping it lands in the `except` at line 86, which
returns False; only a normal return reaches the success branch at lines
77-84. -/
def run_full_pipeline (extractOk transformOk loadOk : Bool)
    (d r : VizResult) : Bool :=
  if !extractOk then false
  else if !transformOk then false
  else if !loadOk then false
  else if !generate_reports d r then false
  else
    match create_pipeline_report false with
    | .error _ => false
    | .ok _ => true

/-! ## Properties of the duplicate drop -/

theorem dedupAux_length_le (seen : List Row) (l : List Row) :
    (dedupAux seen l).length ≤ l.length := by
  induction l generalizing seen with
  | nil => simp [dedupAux]
  | cons r rs ih =>
      by_cases h : r ∈ seen
      · simp only [dedupAux, if_pos h]
        exact (ih seen).trans (Nat.le_succ _)
      · simp only [dedupAux, if_neg h, List.length_cons]
        exact Nat.succ_le_succ (ih (r :: seen))

theorem mem_of_mem_dedupAux {x : Row} {seen l : List Row}
    (h : x ∈ dedupAux seen l) : x ∈ l := by
  induction l generalizing seen with
  | nil => simp [dedupAux] at h
  | cons r rs ih =>
      by_cases hm : r ∈ seen
      · simp only [dedupAux, if_pos hm] at h
        exact List.mem_cons_of_mem _ (ih h)
      · simp only [dedupAux, if_neg hm, List.mem_cons] at h
        rcases h with h | h
        · exact h ▸ List.mem_cons_self _ _
        · exact List.mem_cons_of_mem _ (ih h)

theorem dedupAux_nodup_and_fresh (seen : List Row) (l : List Row) :
    (dedupAux seen l).Nodup ∧ ∀ x ∈ dedupAux seen l, x ∉ seen := by
  induction l generalizing seen with
  | nil => simp [dedupAux]
  | cons r rs ih =>
      by_cases h : r ∈ seen
      · simpa only [dedupAux, if_pos h] using ih seen
      · obtain ⟨hnd, hfresh⟩ := ih (r :: seen)
        simp only [dedupAux, if_neg h]
        constructor
        · refine List.nodup_cons.2 ⟨fun hmem => ?_, hnd⟩
          exact hfresh r hmem (List.mem_cons_self _ _)
        · intro x hx
          rcases List.mem_cons.1 hx with rfl | hx
          · exact h
          · exact fun hs => hfresh x hx (List.mem_cons_of_mem _ hs)

theorem dedupAux_eq_self {seen : List Row} {l : List Row}
    (hnd : l.Nodup) (hfresh : ∀ x ∈ l, x ∉ seen) : dedupAux seen l = l := by
  induction l generalizing seen with
  | nil => rfl
  | cons r rs ih =>
      have hr : r ∉ seen := hfresh r (List.mem_cons_self _ _)
      simp only [dedupAux, if_neg hr]
      obtain ⟨hhead, htail⟩ := List.nodup_cons.1 hnd
      refine congrArg (r :: ·) (ih htail ?_)
      intro x hx hs
      rcases List.mem_cons.1 hs with rfl | hs
      · exact hhead hx
      · exact hfresh x (List.mem_cons_of_mem _ hx) hs

theorem dedupKeepFirst_length_le (l : List Row) :
    (dedupKeepFirst l).length ≤ l.length :=
  dedupAux_length_le [] l

theorem dedupKeepFirst_nodup (l : List Row) : (dedupKeepFirst l).Nodup :=
  (dedupAux_nodup_and_fresh [] l).1

theorem mem_of_mem_dedupKeepFirst {x : Row} {l : List Row}
    (h : x ∈ dedupKeepFirst l) : x ∈ l :=
  mem_of_mem_dedupAux h

theorem dedupKeepFirst_eq_self {l : List Row} (hnd : l.Nodup) :
    dedupKeepFirst l = l :=
  dedupAux_eq_self hnd (by simp)

/-! ## Properties of the sort key order -/

theorem keyLe_refl (a : NetKey) : keyLe a a := by
  simp [keyLe]

theorem keyLe_total (a b : NetKey) : keyLe a b ∨ keyLe b a := by
  unfold keyLe
  rcases Nat.lt_trichotomy a.1 b.1 with h1 | h1 | h1
  · exact Or.inl (Or.inl h1)
  · rcases Nat.lt_trichotomy a.2.1 b.2.1 with h2 | h2 | h2
    · exact Or.inl (Or.inr ⟨h1, Or.inl h2⟩)
    · rcases Nat.lt_trichotomy a.2.2.1 b.2.2.1 with h3 | h3 | h3
      · exact Or.inl (Or.inr ⟨h1, Or.inr ⟨h2, Or.inl h3⟩⟩)
      · rcases le_total a.2.2.2 b.2.2.2 with h4 | h4
        · exact Or.inl (Or.inr ⟨h1, Or.inr ⟨h2, Or.inr ⟨h3, h4⟩⟩⟩)
        · exact Or.inr (Or.inr ⟨h1.symm, Or.inr ⟨h2.symm, Or.inr ⟨h3.symm, h4⟩⟩⟩)
      · exact Or.inr (Or.inr ⟨h1.symm, Or.inr ⟨h2.symm, Or.inl h3⟩⟩)
    · exact Or.inr (Or.inr ⟨h1.symm, Or.inl h2⟩)
  · exact Or.inr (Or.inl h1)

theorem keyLe_trans {a b c : NetKey} (hab : keyLe a b) (hbc : keyLe b c) :
    keyLe a c := by
  unfold keyLe at hab hbc ⊢
  rcases hab with h1 | ⟨e1, hab⟩
  · rcases hbc with h1' | ⟨e1', _⟩
    · exact Or.inl (h1.trans h1')
    · exact Or.inl (e1' ▸ h1)
  · rcases hbc with h1' | ⟨e1', hbc⟩
    · exact Or.inl (e1 ▸ h1')
    · refine Or.inr ⟨e1.trans e1', ?_⟩
      rcases hab with h2 | ⟨e2, hab⟩
      · rcases hbc with h2' | ⟨e2', _⟩
        · exact Or.inl (h2.trans h2')
        · exact Or.inl (e2' ▸ h2)
      · rcases hbc with h2' | ⟨e2', hbc⟩
        · exact Or.inl (e2 ▸ h2')
        · refine Or.inr ⟨e2.trans e2', ?_⟩
          rcases hab with h3 | ⟨e3, hab⟩
          · rcases hbc with h3' | ⟨e3', _⟩
            · exact Or.inl (h3.trans h3')
            · exact Or.inl (e3' ▸ h3)
          · rcases hbc with h3' | ⟨e3', hbc⟩
            · exact Or.inl (e3 ▸ h3')
            · exact Or.inr ⟨e3.trans e3', hab.trans hbc⟩

theorem keyLe_of_not_keyLe {a b : NetKey} (h : ¬ keyLe a b) : keyLe b a :=
  (keyLe_total a b).resolve_left h

theorem ne_of_not_keyLe {a b : NetKey} (h : ¬ keyLe a b) : b ≠ a := by
  intro e
  exact h (e ▸ keyLe_refl b)

/-! ## Properties of the stable sort -/

theorem length_insertRow (r : Row) (l : List Row) :
    (insertRow r l).length = l.length + 1 := by
  induction l with
  | nil => rfl
  | cons x xs ih =>
      by_cases h : keyLe (netflixSortKey r) (netflixSortKey x)
      · simp [insertRow, if_pos h]
      · simp [insertRow, if_neg h, ih]

theorem insertRow_perm (r : Row) (l : List Row) :
    List.Perm (insertRow r l) (r :: l) := by
  induction l with
  | nil => exact List.Perm.refl _
  | cons x xs ih =>
      by_cases h : keyLe (netflixSortKey r) (netflixSortKey x)
      · simp only [insertRow, if_pos h]
        exact List.Perm.refl _
      · simp only [insertRow, if_neg h]
        exact (ih.cons x).trans (List.Perm.swap r x xs)

theorem sortRows_perm (l : List Row) : List.Perm (sortRows l) l := by
  induction l with
  | nil => exact List.Perm.refl _
  | cons r rs ih =>
      exact (insertRow_perm r (sortRows rs)).trans (ih.cons r)

theorem length_sortRows (l : List Row) : (sortRows l).length = l.length :=
  (sortRows_perm l).length_eq

theorem mem_sortRows {x : Row} {l : List Row} :
    x ∈ sortRows l ↔ x ∈ l :=
  (sortRows_perm l).mem_iff

theorem insertRow_pairwise {r : Row} {l : List Row}
    (hl : l.Pairwise (fun a b => keyLe (netflixSortKey a) (netflixSortKey b))) :
    (insertRow r l).Pairwise
      (fun a b => keyLe (netflixSortKey a) (netflixSortKey b)) := by
  induction l with
  | nil => simp [insertRow]
  | cons x xs ih =>
      obtain ⟨hx, hxs⟩ := List.pairwise_cons.1 hl
      by_cases h : keyLe (netflixSortKey r) (netflixSortKey x)
      · simp only [insertRow, if_pos h]
        refine List.pairwise_cons.2 ⟨?_, hl⟩
        intro y hy
        rcases List.mem_cons.1 hy with rfl | hy
        · exact h
        · exact keyLe_trans h (hx y hy)
      · simp only [insertRow, if_neg h]
        refine List.pairwise_cons.2 ⟨?_, ih hxs⟩
        intro y hy
        have : y = r ∨ y ∈ xs := by
          have := (insertRow_perm r xs).mem_iff.1 hy
          simpa using this
        rcases this with rfl | hy
        · exact keyLe_of_not_keyLe h
        · exact hx y hy

theorem sortRows_pairwise (l : List Row) :
    (sortRows l).Pairwise
      (fun a b => keyLe (netflixSortKey a) (netflixSortKey b)) := by
  induction l with
  | nil => simp [sortRows]
  | cons r rs ih => exact insertRow_pairwise ih

theorem filter_insertRow (k : NetKey) (r : Row) (l : List Row) :
    (insertRow r l).filter (fun x => netflixSortKey x = k)
      = if netflixSortKey r = k then
          r :: l.filter (fun x => netflixSortKey x = k)
        else l.filter (fun x => netflixSortKey x = k) := by
  induction l with
  | nil =>
      by_cases h : netflixSortKey r = k
      · simp [insertRow, List.filter, h]
      · simp [insertRow, List.filter, h]
  | cons x xs ih =>
      by_cases h : keyLe (netflixSortKey r) (netflixSortKey x)
      · simp only [insertRow, if_pos h]
        by_cases hk : netflixSortKey r = k
        · simp [List.filter_cons, hk]
        · simp [List.filter_cons, hk]
      · have hne : netflixSortKey x ≠ netflixSortKey r := ne_of_not_keyLe h
        simp only [insertRow, if_neg h]
        by_cases hk : netflixSortKey r = k
        · have hxk : ¬ netflixSortKey x = k := fun e => hne (e.trans hk.symm)
          simp [List.filter_cons, hxk, ih, hk]
        · by_cases hxk : netflixSortKey x = k
          · simp [List.filter_cons, hxk, ih, hk]
          · simp [List.filter_cons, hxk, ih, hk]

theorem filter_sortRows (k : NetKey) (l : List Row) :
    (sortRows l).filter (fun x => netflixSortKey x = k)
      = l.filter (fun x => netflixSortKey x = k) := by
  induction l with
  | nil => rfl
  | cons r rs ih =>
      by_cases hk : netflixSortKey r = k
      · simp [sortRows, filter_insertRow, hk, ih, List.filter_cons]
      · simp [sortRows, filter_insertRow, hk, ih, List.filter_cons]

/-! ## Idempotence of trimming and of the cell cleaners -/

theorem dropWhile_dropWhile (p : Char → Bool) (l : List Char) :
    (l.dropWhile p).dropWhile p = l.dropWhile p := by
  cases h : l.dropWhile p with
  | nil => rfl
  | cons c t =>
      have hne : l.dropWhile p ≠ [] := by simp [h]
      have hc := List.head_dropWhile_not p l hne
      simp only [h, List.head_cons] at hc
      exact List.dropWhile_cons_of_neg (by simp [hc])

theorem head_false_of_dropWhile_fix {p : Char → Bool} {c : Char}
    {t : List Char} (h : (c :: t).dropWhile p = c :: t) : p c = false := by
  by_cases hc : p c
  · exfalso
    rw [List.dropWhile_cons_of_pos hc] at h
    have hlen := congrArg List.length h
    have hle : (t.dropWhile p).length ≤ t.length :=
      (List.dropWhile_sublist p).length_le
    simp only [List.length_cons] at hlen
    omega
  · simpa using hc

theorem prefix_dropWhile_fix {p : Char → Bool} {m A : List Char}
    (hA : A.dropWhile p = A) (hm : m <+: A) : m.dropWhile p = m := by
  cases m with
  | nil => rfl
  | cons c t =>
      obtain ⟨rest, hrest⟩ := hm
      have hAe : A = c :: (t ++ rest) := by
        rw [← hrest]
        simp
      rw [hAe] at hA
      have hc := head_false_of_dropWhile_fix hA
      exact List.dropWhile_cons_of_neg (by simp [hc])

theorem trimChars_front (l : List Char) :
    (trimChars l).dropWhile Char.isWhitespace = trimChars l := by
  refine prefix_dropWhile_fix (A := l.dropWhile Char.isWhitespace)
    (dropWhile_dropWhile _ _) ?_
  unfold trimChars
  have hsuf :
      (l.dropWhile Char.isWhitespace).reverse.dropWhile Char.isWhitespace
        <:+ (l.dropWhile Char.isWhitespace).reverse :=
    List.dropWhile_suffix _
  have := hsuf.reverse
  simpa using this

theorem trimChars_back (l : List Char) :
    (trimChars l).reverse.dropWhile Char.isWhitespace = (trimChars l).reverse := by
  unfold trimChars
  rw [List.reverse_reverse]
  exact dropWhile_dropWhile _ _

theorem trimChars_trimChars (l : List Char) :
    trimChars (trimChars l) = trimChars l := by
  conv_lhs => rw [trimChars]
  rw [trimChars_front, trimChars_back, List.reverse_reverse]

theorem strTrim_strTrim (s : String) : strTrim (strTrim s) = strTrim s := by
  unfold strTrim
  exact congrArg String.mk (trimChars_trimChars s.data)

theorem strTrim_data (s : String) : (strTrim s).data = trimChars s.data := rfl

/-- Second application of the text cleaner is the identity, provided the
first one did not produce a literal placeholder string (which can happen:
a spaced-out nan strips down to the placeholder after the exact-match
replacement already ran). -/
theorem cleanTextCell_idem {c : Cell}
    (h1 : cleanTextCell c ≠ .str "nan") (h2 : cleanTextCell c ≠ .str "None") :
    cleanTextCell (cleanTextCell c) = cleanTextCell c := by
  cases c with
  | str s =>
      by_cases hp : s = "nan" ∨ s = "None"
      · simp [cleanTextCell, hp]
      · simp only [cleanTextCell, if_neg hp] at h1 h2 ⊢
        by_cases he : strTrim s = ""
        · simp [he]
        · simp only [if_neg he] at h1 h2 ⊢
          have ht1 : strTrim s ≠ "nan" := fun e => h1 (by rw [e])
          have ht2 : strTrim s ≠ "None" := fun e => h2 (by rw [e])
          simp [cleanTextCell, ht1, ht2, strTrim_strTrim, he]
  | na => rfl
  | num q => rfl
  | date d => rfl
  | boolean b => rfl

/-- The duration cleaner is idempotent outright (it strips before the
placeholder check, so its output is never a placeholder). -/
theorem cleanDurationCell_idem (c : Cell) :
    cleanDurationCell (cleanDurationCell c) = cleanDurationCell c := by
  cases c with
  | str s =>
      by_cases hp : isPlaceholder (strTrim s)
      · simp [cleanDurationCell, hp]
      · simp [cleanDurationCell, hp, strTrim_strTrim]
  | na => rfl
  | num q => rfl
  | date d => rfl
  | boolean b => rfl

/-- The date normalizer is idempotent: its output is missing or a parsed
date, and both are fixed points. -/
theorem toDatetime_idem (parse : String → Option Nat) (c : Cell) :
    toDatetime parse (toDatetime parse c) = toDatetime parse c := by
  cases c with
  | str s =>
      by_cases hp : isPlaceholder (strTrim s)
      · simp [toDatetime, hp]
      · simp only [toDatetime, if_neg hp]
        cases parse (strTrim s) <;> rfl
  | na => rfl
  | num q => rfl
  | date d => rfl
  | boolean b => rfl

/-- Coerce-then-filter applied to an already filtered release_year cell
changes nothing (the same current-year bound is used both times). -/
theorem filterYear_toNumeric_filterYear (currentYear : Nat) (x : Cell) :
    filterYear currentYear (toNumericCell (filterYear currentYear x))
      = filterYear currentYear x := by
  cases x with
  | num q =>
      by_cases hq : q < 1900 ∨ ((currentYear + 2 : Nat) : ℚ) < q
      · have h1 : filterYear currentYear (Cell.num q) = Cell.na := by
          simp only [filterYear]
          rw [if_pos hq]
        rw [h1]
        rfl
      · have h1 : filterYear currentYear (Cell.num q) = Cell.num q := by
          simp only [filterYear]
          rw [if_neg hq]
        rw [h1, show toNumericCell (Cell.num q) = Cell.num q from rfl, h1]
  | na => rfl
  | str s =>
      simp only [filterYear]
      cases toNumericCell (Cell.str s) <;> rfl
  | date d => rfl
  | boolean b => rfl

/-! ## The composite row map and its fixed points -/

/-- None of the seven cleaned text cells of a row is a literal placeholder
string.  A transformed row can violate this (a spaced-out nan strips down
to the literal nan), and exactly those rows make a second Transformer run
diverge. -/
def noPlaceholderText (r : Row) : Prop :=
  (r.title ≠ .str "nan" ∧ r.title ≠ .str "None") ∧
  (r.director ≠ .str "nan" ∧ r.director ≠ .str "None") ∧
  (r.cast ≠ .str "nan" ∧ r.cast ≠ .str "None") ∧
  (r.country ≠ .str "nan" ∧ r.country ≠ .str "None") ∧
  (r.rating ≠ .str "nan" ∧ r.rating ≠ .str "None") ∧
  (r.listed_in ≠ .str "nan" ∧ r.listed_in ≠ .str "None") ∧
  (r.description ≠ .str "nan" ∧ r.description ≠ .str "None")

instance (r : Row) : Decidable (noPlaceholderText r) := by
  unfold noPlaceholderText
  infer_instance

theorem rowStage_title (parse : String → Option Nat) (cy : Nat) (r : Row) :
    (rowStage parse cy r).title = cleanTextCell r.title := rfl

theorem rowStage_director (parse : String → Option Nat) (cy : Nat) (r : Row) :
    (rowStage parse cy r).director = cleanTextCell r.director := rfl

theorem rowStage_cast (parse : String → Option Nat) (cy : Nat) (r : Row) :
    (rowStage parse cy r).cast = cleanTextCell r.cast := rfl

theorem rowStage_country (parse : String → Option Nat) (cy : Nat) (r : Row) :
    (rowStage parse cy r).country = cleanTextCell r.country := rfl

theorem rowStage_rating (parse : String → Option Nat) (cy : Nat) (r : Row) :
    (rowStage parse cy r).rating = cleanTextCell r.rating := rfl

theorem rowStage_listed_in (parse : String → Option Nat) (cy : Nat) (r : Row) :
    (rowStage parse cy r).listed_in = cleanTextCell r.listed_in := rfl

theorem rowStage_description (parse : String → Option Nat) (cy : Nat) (r : Row) :
    (rowStage parse cy r).description = cleanTextCell r.description := rfl

/-- The composite row map is idempotent on any row whose cleaned text
cells are not literal placeholders. -/
theorem rowStage_idem (parse : String → Option Nat) (cy : Nat) (r : Row)
    (h : noPlaceholderText (rowStage parse cy r)) :
    rowStage parse cy (rowStage parse cy r) = rowStage parse cy r := by
  obtain ⟨⟨a1, a2⟩, ⟨b1, b2⟩, ⟨c1, c2⟩, ⟨d1, d2⟩, ⟨e1, e2⟩, ⟨f1, f2⟩, ⟨g1, g2⟩⟩ := h
  rw [rowStage_title] at a1 a2
  rw [rowStage_director] at b1 b2
  rw [rowStage_cast] at c1 c2
  rw [rowStage_country] at d1 d2
  rw [rowStage_rating] at e1 e2
  rw [rowStage_listed_in] at f1 f2
  rw [rowStage_description] at g1 g2
  have et := cleanTextCell_idem a1 a2
  have ed := cleanTextCell_idem b1 b2
  have ec := cleanTextCell_idem c1 c2
  have eco := cleanTextCell_idem d1 d2
  have er := cleanTextCell_idem e1 e2
  have el := cleanTextCell_idem f1 f2
  have ede := cleanTextCell_idem g1 g2
  simp only [rowStage, process_categorical_data_row, engineer_features_row,
    clean_text_columns_row, transform_dates_row]
  simp only [toDatetime_idem, filterYear_toNumeric_filterYear,
    cleanDurationCell_idem, et, ed, ec, eco, er, el, ede]

/-! ## Decomposing the transformation pipeline -/

theorem transform_eq (parse : String → Option Nat) (cy : Nat) {l : List Row}
    (h : l ≠ []) :
    transform_netflix_data parse cy l
      = some (final_cleanup ((clean_basic_data l).map (rowStage parse cy))) := by
  unfold transform_netflix_data
  rw [if_neg h]
  unfold process_categorical_data engineer_features clean_text_columns
    transform_dates
  simp only [List.map_map]
  rfl

theorem exists_of_mem_transform {parse : String → Option Nat} {cy : Nat}
    {l out : List Row} {r : Row}
    (h : transform_netflix_data parse cy l = some out) (hr : r ∈ out) :
    ∃ x, x ∈ clean_basic_data l ∧ rowStage parse cy x = r := by
  by_cases hl : l = []
  · rw [hl] at h
    simp [transform_netflix_data] at h
  · rw [transform_eq parse cy hl] at h
    have hout := Option.some.inj h
    rw [← hout] at hr
    have h1 : r ∈ dedupKeepFirst ((clean_basic_data l).map (rowStage parse cy)) :=
      mem_sortRows.1 hr
    have h2 := mem_of_mem_dedupKeepFirst h1
    exact List.mem_map.1 h2

theorem transform_length_le (parse : String → Option Nat) (cy : Nat)
    {l : List Row} (h : l ≠ []) :
    ((transform_netflix_data parse cy l).getD []).length ≤ l.length := by
  rw [transform_eq parse cy h]
  simp only [Option.getD_some, final_cleanup]
  calc (sortRows (dedupKeepFirst ((clean_basic_data l).map (rowStage parse cy)))).length
      = (dedupKeepFirst ((clean_basic_data l).map (rowStage parse cy))).length :=
        length_sortRows _
    _ ≤ ((clean_basic_data l).map (rowStage parse cy)).length :=
        dedupKeepFirst_length_le _
    _ = (clean_basic_data l).length := List.length_map _ _
    _ ≤ (dedupKeepFirst l).length := List.length_filter_le _ _
    _ ≤ l.length := dedupKeepFirst_length_le l

theorem transform_nodup {parse : String → Option Nat} {cy : Nat}
    {l out : List Row} (h : transform_netflix_data parse cy l = some out) :
    out.Nodup := by
  by_cases hl : l = []
  · rw [hl] at h
    simp [transform_netflix_data] at h
  · rw [transform_eq parse cy hl] at h
    have hout := Option.some.inj h
    rw [← hout, final_cleanup]
    exact (sortRows_perm _).nodup_iff.2 (dedupKeepFirst_nodup _)

theorem list_map_fix {f : Row → Row} {l : List Row}
    (h : ∀ x ∈ l, f x = x) : l.map f = l := by
  induction l with
  | nil => rfl
  | cons x xs ih =>
      rw [List.map_cons, h x (List.mem_cons_self _ _),
        ih fun y hy => h y (List.mem_cons_of_mem _ hy)]

/-- A second Transformer run preserves the row count provided the first
output is non-empty, every row still has its critical cells, and no
cleaned text cell is a literal placeholder: the second run's basic
cleaning, row maps and final duplicate drop are then all the identity up
to the final re-sort. -/
theorem second_run_preserves_length (parse : String → Option Nat) (cy : Nat)
    {l T : List Row}
    (h2 : transform_netflix_data parse cy l = some T) (h3 : T ≠ [])
    (h4 : ∀ r ∈ T, keepCritical r = true)
    (h5 : ∀ r ∈ T, noPlaceholderText r) :
    transform_netflix_data parse cy T = some (sortRows T) ∧
      ((transform_netflix_data parse cy T).getD []).length = T.length := by
  have hnd : T.Nodup := transform_nodup h2
  have hfix : ∀ r ∈ T, rowStage parse cy r = r := by
    intro r hr
    obtain ⟨x, _, hx⟩ := exists_of_mem_transform h2 hr
    rw [← hx]
    exact rowStage_idem parse cy x (hx ▸ h5 r hr)
  have hbasic : clean_basic_data T = T := by
    rw [clean_basic_data, dedupKeepFirst_eq_self hnd]
    exact List.filter_eq_self.2 h4
  have hmap : T.map (rowStage parse cy) = T := list_map_fix hfix
  have heq : transform_netflix_data parse cy T = some (sortRows T) := by
    rw [transform_eq parse cy h3, hbasic, hmap, final_cleanup,
      dedupKeepFirst_eq_self hnd]
  refine ⟨heq, ?_⟩
  rw [heq]
  simpa using length_sortRows T

/-! ## Placement of missing sort keys, and unit-regex characterization -/

/-- Does the row carry a parsed date in date_added? -/
def datePresent (r : Row) : Bool :=
  match r.date_added with
  | .date _ => true
  | _ => false

theorem sortRows_missing_last (l : List Row) :
    (sortRows l).Pairwise
      (fun a b => datePresent b = true → datePresent a = true) := by
  refine (sortRows_pairwise l).imp ?_
  intro a b hk hb
  cases ha : a.date_added with
  | date d => simp [datePresent, ha]
  | na =>
      exfalso
      cases hbd : b.date_added with
      | date d2 =>
          simp only [netflixSortKey, keyLe, ha, hbd] at hk
          rcases hk with h | ⟨h, _⟩ <;> omega
      | na => simp [datePresent, hbd] at hb
      | str s => simp [datePresent, hbd] at hb
      | num q => simp [datePresent, hbd] at hb
      | boolean bb => simp [datePresent, hbd] at hb
  | str s =>
      exfalso
      cases hbd : b.date_added with
      | date d2 =>
          simp only [netflixSortKey, keyLe, ha, hbd] at hk
          rcases hk with h | ⟨h, _⟩ <;> omega
      | na => simp [datePresent, hbd] at hb
      | str s2 => simp [datePresent, hbd] at hb
      | num q => simp [datePresent, hbd] at hb
      | boolean bb => simp [datePresent, hbd] at hb
  | num q =>
      exfalso
      cases hbd : b.date_added with
      | date d2 =>
          simp only [netflixSortKey, keyLe, ha, hbd] at hk
          rcases hk with h | ⟨h, _⟩ <;> omega
      | na => simp [datePresent, hbd] at hb
      | str s2 => simp [datePresent, hbd] at hb
      | num q2 => simp [datePresent, hbd] at hb
      | boolean bb => simp [datePresent, hbd] at hb
  | boolean bv =>
      exfalso
      cases hbd : b.date_added with
      | date d2 =>
          simp only [netflixSortKey, keyLe, ha, hbd] at hk
          rcases hk with h | ⟨h, _⟩ <;> omega
      | na => simp [datePresent, hbd] at hb
      | str s2 => simp [datePresent, hbd] at hb
      | num q2 => simp [datePresent, hbd] at hb
      | boolean bb => simp [datePresent, hbd] at hb

/-- The end-anchored alternation search is exactly the suffix test, with
the three suffixes mutually exclusive. -/
theorem searchUnit_eq (cs : List Char) :
    searchUnit cs =
      if "min".data <:+ cs then some "min"
      else if "Seasons".data <:+ cs then some "Seasons"
      else if "Season".data <:+ cs then some "Season"
      else none := by
  induction cs with
  | nil => decide
  | cons c rest ih =>
      by_cases e1 : (c :: rest) = "min".data
      · rw [e1]; decide
      · by_cases e2 : (c :: rest) = "Season".data
        · rw [e2]; decide
        · by_cases e3 : (c :: rest) = "Seasons".data
          · rw [e3]; decide
          · have hu : unitAt (c :: rest) = none := by
              simp [unitAt, e1, e2, e3]
            have hs : searchUnit (c :: rest) = searchUnit rest := by
              simp [searchUnit, hu]
            have m1 : ("min".data <:+ (c :: rest)) ↔ ("min".data <:+ rest) := by
              rw [List.suffix_cons_iff]
              exact or_iff_right fun he => e1 he.symm
            have m2 : ("Seasons".data <:+ (c :: rest)) ↔ ("Seasons".data <:+ rest) := by
              rw [List.suffix_cons_iff]
              exact or_iff_right fun he => e3 he.symm
            have m3 : ("Season".data <:+ (c :: rest)) ↔ ("Season".data <:+ rest) := by
              rw [List.suffix_cons_iff]
              exact or_iff_right fun he => e2 he.symm
            rw [hs, ih]
            simp only [m1, m2, m3]

/-! ## Concrete instances used by witnesses and counterexamples -/

/-- A date parser that parses nothing; every claim below is insensitive to
the parsing table, and the rows used here carry no real date strings. -/
def noParse : String → Option Nat := fun _ => none

/-- A raw row whose title is the literal string nan: it survives the
critical-column drop (the cell is present), but text cleaning turns the
title into a missing value. -/
def badRow : Row :=
  mkRawRow (.str "s1") (.str "Movie") (.str "nan")
    .na .na .na .na .na .na .na .na .na

/-- A well-behaved raw row. -/
def goodRow : Row :=
  mkRawRow (.str "s1") (.str "Movie") (.str "A Title")
    .na .na .na .na .na .na .na .na .na

/-- A raw row exercising ratings, duration and the list columns. -/
def row9 : Row :=
  mkRawRow (.str "s1") (.str "Movie") (.str "T") .na .na
    (.str "France, Germany") .na .na (.str "PG-13") (.str "90 min")
    (.str "Drama") .na

/-- A parsed CSV with no rows and no columns. -/
def emptyCsv : CsvTable := ⟨[], 0⟩

/-! ## Claims -/

/-- C1: the reporting stage itself does log and skip failures — the
chart and report builders catch every exception raised while building
and return no artifact, and `_generate_reports` still reports success —
but the overall run signal is failure on EVERY full run, reporting
failure or not: step 5 calls `_create_pipeline_report` before the end
timestamp is assigned, the unguarded subtraction raises `TypeError`, and
the outer handler returns False, so the success branch (and its
`return True`) is unreachable, contradicting the claim and the method's
own docstring. -/
theorem c1_full_run_returns_failure :
    ∀ (d r : VizResult) (e : String),
      run_full_pipeline true true true d r = false ∧
      generate_reports d r = true ∧
      create_netflix_dashboard (.raises e) = none ∧
      generate_analysis_report (.raises e) = none ∧
      create_pipeline_report false = Except.error "TypeError" :=
  fun _ _ _ => ⟨rfl, rfl, rfl, rfl, rfl⟩

/-- C2 counterexample: when the UTF-8 read fails with a decode error and
the Latin-1 retry parses an empty, column-less table, the extractor
returns that table — not the failure marker — even though both
validations reject it. -/
theorem c2_counterexample :
    extract_netflix_data true ReadOutcome.decodeError (ReadOutcome.ok emptyCsv)
        = some emptyCsv ∧
      validar_dados emptyCsv = false ∧
      validar_dados_netflix emptyCsv = false :=
  ⟨rfl, by decide, by decide⟩

/-- C2 amended: the extractor returns the failure marker on an empty or
column-deficient table only when the file was read under UTF-8; under the
Latin-1 fallback the parsed table is returned with no validation at
all. -/
theorem c2_validation_utf8_only (t u : CsvTable) (latin1 : ReadOutcome)
    (h : validar_dados t = false ∨ validar_dados_netflix t = false) :
    extract_netflix_data true (ReadOutcome.ok t) latin1 = none ∧
    extract_netflix_data true ReadOutcome.decodeError (ReadOutcome.ok u)
      = some u := by
  refine ⟨?_, rfl⟩
  rcases h with h | h
  · simp [extract_netflix_data, h]
  · cases hv : validar_dados t <;> simp [extract_netflix_data, hv, h]

/-- C2 witness. -/
theorem c2_validation_utf8_only_witness :
    (validar_dados emptyCsv = false ∨ validar_dados_netflix emptyCsv = false) ∧
    (extract_netflix_data true (ReadOutcome.ok emptyCsv) ReadOutcome.decodeError
        = none ∧
      extract_netflix_data true ReadOutcome.decodeError (ReadOutcome.ok emptyCsv)
        = some emptyCsv) :=
  ⟨Or.inl (by decide),
   c2_validation_utf8_only emptyCsv emptyCsv ReadOutcome.decodeError
     (Or.inl (by decide))⟩

/-- C3: on every non-empty input table the Transformer succeeds and its
output has at most as many rows as its input (the passes only drop
rows). -/
theorem c3_row_count_monotone (parse : String → Option Nat) (cy : Nat)
    (l : List Row) (h : l ≠ []) :
    transform_netflix_data parse cy l ≠ none ∧
    ((transform_netflix_data parse cy l).getD []).length ≤ l.length := by
  constructor
  · rw [transform_eq parse cy h]
    simp
  · exact transform_length_le parse cy h

/-- C3 witness. -/
theorem c3_row_count_monotone_witness :
    [row9] ≠ [] ∧
    (transform_netflix_data noParse 2026 [row9] ≠ none ∧
      ((transform_netflix_data noParse 2026 [row9]).getD []).length
        ≤ [row9].length) :=
  ⟨by decide, c3_row_count_monotone noParse 2026 [row9] (by decide)⟩

/-- C6: duration parsing extracts the leftmost digit run as the numeric
value, and unit detection is exactly the end-of-string suffix test for
min / Season / Seasons; on the two checkpoint inputs it yields 90 with
unit min and movie-flag, and 3 with unit Seasons and series-flag. -/
theorem c6_duration_parsing :
    (∀ cs : List Char,
      searchUnit cs =
        if "min".data <:+ cs then some "min"
        else if "Seasons".data <:+ cs then some "Seasons"
        else if "Season".data <:+ cs then some "Season"
        else none) ∧
    durationValueCell (.str "90 min") = .num 90 ∧
    durationUnitCell (.str "90 min") = .str "min" ∧
    (engineer_features_row { rowNa with duration := .str "90 min" }).is_movie
      = .boolean true ∧
    (engineer_features_row { rowNa with duration := .str "90 min" }).is_tv_show
      = .boolean false ∧
    durationValueCell (.str "3 Seasons") = .num 3 ∧
    durationUnitCell (.str "3 Seasons") = .str "Seasons" ∧
    (engineer_features_row { rowNa with duration := .str "3 Seasons" }).is_tv_show
      = .boolean true ∧
    (engineer_features_row { rowNa with duration := .str "3 Seasons" }).is_movie
      = .boolean false :=
  ⟨searchUnit_eq, by decide, by decide, by decide, by decide,
   by decide, by decide, by decide, by decide⟩

/-- The floor-division-by-ten used for the decade is the rational floor
of `q / 10`. -/
theorem floorDivTen_eq_floor (q : ℚ) : floorDivTen q = ⌊q / 10⌋ := by
  have hq : (q / 10 : ℚ) = (q.num : ℚ) / ((10 * q.den : ℕ) : ℚ) := by
    conv_lhs => rw [← Rat.num_div_den q]
    push_cast
    rw [div_div, mul_comm]
  rw [floorDivTen, hq, Rat.floor_intCast_div_natCast]
  push_cast
  rfl

/-- C7: release-year normalization coerces to numeric, maps out-of-range
years (before 1900 or more than two past the current year) to missing,
and buckets the surviving year to its decade by flooring `year / 10` and
scaling back by ten — so 1994 lands in 1990 and 2005 in 2000, and
fractional or negative values bucket downward. -/
theorem c7_release_year_normalization (cy : Nat) (q : ℚ) :
    (∀ (parse : String → Option Nat) (r : Row),
      (transform_dates_row parse cy r).release_year
          = filterYear cy (toNumericCell r.release_year) ∧
      (transform_dates_row parse cy r).decade
          = decadeCell (filterYear cy (toNumericCell r.release_year))) ∧
    ((q < 1900 ∨ ((cy + 2 : Nat) : ℚ) < q) → filterYear cy (.num q) = .na) ∧
    (1900 ≤ q → q ≤ ((cy + 2 : Nat) : ℚ) → filterYear cy (.num q) = .num q) ∧
    decadeCell (.num q) = .num ((10 * ⌊q / 10⌋ : ℤ) : ℚ) ∧
    ((10 * ⌊q / 10⌋ : ℤ) : ℚ) ≤ q ∧ q < ((10 * ⌊q / 10⌋ : ℤ) : ℚ) + 10 ∧
    decadeCell (.num 1994) = .num 1990 ∧
    decadeCell (.num 2005) = .num 2000 := by
  have hfl : (⌊q / 10⌋ : ℚ) ≤ q / 10 := Int.floor_le (q / 10)
  have hfu : q / 10 < ⌊q / 10⌋ + 1 := Int.lt_floor_add_one (q / 10)
  refine ⟨fun parse r => ⟨rfl, rfl⟩, ?_, ?_, ?_, ?_, ?_, by decide, by decide⟩
  · intro h
    simp only [filterYear]
    rw [if_pos h]
  · intro h1 h2
    have hcond : ¬ (q < 1900 ∨ ((cy + 2 : Nat) : ℚ) < q) := by
      push_neg
      exact ⟨h1, h2⟩
    simp only [filterYear]
    rw [if_neg hcond]
  · simp only [decadeCell, floorDivTen_eq_floor]
  · push_cast
    linarith
  · push_cast
    linarith

/-- C7 witness: 1899 is filtered out, 1994 survives. -/
theorem c7_release_year_normalization_witness :
    filterYear 2026 (.num 1899) = .na ∧
    filterYear 2026 (.num 1994) = .num 1994 :=
  ⟨(c7_release_year_normalization 2026 1899).2.1 (Or.inl (by norm_num)),
   (c7_release_year_normalization 2026 1994).2.2.1 (by norm_num)
     (by push_cast; norm_num)⟩

/-- First-run output on the well-behaved row. -/
def outGood : List Row := (transform_netflix_data noParse 2026 [goodRow]).getD []

/-- First-run output on the ratings/duration/list row. -/
def outRow9 : List Row := (transform_netflix_data noParse 2026 [row9]).getD []

/-- C4 counterexample: on the raw row whose title is the literal string
nan, the first Transformer run keeps one row (the title cell is present),
but text cleaning turns that title into a missing value, so the second
run's critical-column drop removes it: re-running the Transformer on its
own 1-row output yields 0 rows. -/
theorem c4_counterexample :
    (transform_netflix_data noParse 2026 [badRow]).map List.length = some 1 ∧
    ((transform_netflix_data noParse 2026 [badRow]).bind
        (transform_netflix_data noParse 2026)).map List.length = some 0 :=
  ⟨by decide, by decide⟩

/-- C4 amended: re-running the Transformer on its own output preserves
the row count provided the output is non-empty, every output row still
has its identifier, title and type, and no cleaned text cell holds a
literal placeholder string (nan / None); a row violating these — for
example a title that cleaned to missing or to the literal nan — is
dropped by the second run. -/
theorem c4_idempotent_on_clean_output (parse : String → Option Nat)
    (cy : Nat) (l T : List Row)
    (h2 : transform_netflix_data parse cy l = some T) (h3 : T ≠ [])
    (h4 : ∀ r ∈ T, keepCritical r = true)
    (h5 : ∀ r ∈ T, noPlaceholderText r) :
    transform_netflix_data parse cy T ≠ none ∧
    ((transform_netflix_data parse cy T).getD []).length = T.length := by
  obtain ⟨heq, hlen⟩ := second_run_preserves_length parse cy h2 h3 h4 h5
  refine ⟨?_, hlen⟩
  rw [heq]
  simp

/-- C4 witness. -/
theorem c4_idempotent_on_clean_output_witness :
    (transform_netflix_data noParse 2026 [goodRow] = some outGood ∧
      outGood ≠ [] ∧
      (∀ r ∈ outGood, keepCritical r = true) ∧
      (∀ r ∈ outGood, noPlaceholderText r)) ∧
    (transform_netflix_data noParse 2026 outGood ≠ none ∧
      ((transform_netflix_data noParse 2026 outGood).getD []).length
        = outGood.length) :=
  ⟨⟨by decide, by decide, by decide, by decide⟩,
   c4_idempotent_on_clean_output noParse 2026 [goodRow] outGood
     (by decide) (by decide) (by decide) (by decide)⟩

/-- C5: in every Transformer output row the rating category is the fixed
lookup applied to the row's rating with default Other; the lookup sends
PG-13 to Teen, TV-MA to Adult, and any unmapped or missing code to
Other. -/
theorem c5_rating_category_lookup (parse : String → Option Nat) (cy : Nat)
    (l out : List Row) (h : transform_netflix_data parse cy l = some out) :
    (∀ r ∈ out, r.rating_category = ratingCategoryCell r.rating) ∧
    ratingCategoryCell (.str "PG-13") = .str "Teen" ∧
    ratingCategoryCell (.str "TV-MA") = .str "Adult" ∧
    ratingCategoryCell (.str "XYZ") = .str "Other" ∧
    ratingCategoryCell .na = .str "Other" ∧
    (∀ s, ratingLookup s = none → ratingCategoryCell (.str s) = .str "Other") := by
  refine ⟨?_, by decide, by decide, by decide, rfl, ?_⟩
  · intro r hr
    obtain ⟨x, _, hx⟩ := exists_of_mem_transform h hr
    rw [← hx]
    rfl
  · intro s hs
    simp [ratingCategoryCell, hs]

/-- C5 witness. -/
theorem c5_rating_category_lookup_witness :
    (transform_netflix_data noParse 2026 [row9] = some outRow9) ∧
    ((∀ r ∈ outRow9, r.rating_category = ratingCategoryCell r.rating) ∧
      ratingCategoryCell (.str "PG-13") = .str "Teen" ∧
      ratingCategoryCell (.str "TV-MA") = .str "Adult" ∧
      ratingCategoryCell (.str "XYZ") = .str "Other" ∧
      ratingCategoryCell .na = .str "Other" ∧
      (∀ s, ratingLookup s = none →
        ratingCategoryCell (.str s) = .str "Other")) :=
  ⟨by decide,
   c5_rating_category_lookup noParse 2026 [row9] outRow9 (by decide)⟩

/-- C8: the final-cleanup sort orders rows by date-added then identifier
(lexicographic key order), places every row with a missing date-added
strictly after all rows with a present date-added, only permutes the
rows, and is stable: for every key value, the rows carrying that key
appear in their incoming order. -/
theorem c8_sort_order_and_stability (l : List Row) (k : NetKey) :
    (final_cleanup l).Pairwise
      (fun a b => keyLe (netflixSortKey a) (netflixSortKey b)) ∧
    (final_cleanup l).Pairwise
      (fun a b => datePresent b = true → datePresent a = true) ∧
    List.Perm (sortRows l) l ∧
    (sortRows l).filter (fun x => netflixSortKey x = k)
      = l.filter (fun x => netflixSortKey x = k) :=
  ⟨sortRows_pairwise _, sortRows_missing_last _, sortRows_perm l,
   filter_sortRows k l⟩

/-- C9: in every Transformer output row the primary country/genre is the
trimmed first comma-separated token of the cleaned list column, the
multi-country flag is comma presence, and the genre-diversity count is
comma-count + 1, or 0 when the column is missing; on the checkpoints,
France-comma-Germany yields primary France with the flag set, and Drama
yields primary Drama with diversity 1. -/
theorem c9_primary_token_extraction (parse : String → Option Nat) (cy : Nat)
    (l out : List Row) (h : transform_netflix_data parse cy l = some out) :
    (∀ r ∈ out,
      r.primary_country = primaryCell r.country ∧
      r.is_international = containsCommaCell r.country ∧
      r.primary_genre = primaryCell r.listed_in ∧
      r.genre_diversity = countCell r.listed_in) ∧
    primaryCell (.str "France, Germany") = .str "France" ∧
    containsCommaCell (.str "France, Germany") = .boolean true ∧
    primaryCell (.str "Drama") = .str "Drama" ∧
    containsCommaCell (.str "Drama") = .boolean false ∧
    countCell (.str "Drama") = .num 1 ∧
    countCell .na = .num 0 ∧
    (∀ s, countCell (.str s) = .num ((commaCount s + 1 : Nat) : ℚ)) := by
  refine ⟨?_, by decide, by decide, by decide, by decide, by decide, rfl,
    fun s => rfl⟩
  intro r hr
  obtain ⟨x, _, hx⟩ := exists_of_mem_transform h hr
  rw [← hx]
  exact ⟨rfl, rfl, rfl, rfl⟩

/-- C9 witness. -/
theorem c9_primary_token_extraction_witness :
    (transform_netflix_data noParse 2026 [row9] = some outRow9) ∧
    ((∀ r ∈ outRow9,
        r.primary_country = primaryCell r.country ∧
        r.is_international = containsCommaCell r.country ∧
        r.primary_genre = primaryCell r.listed_in ∧
        r.genre_diversity = countCell r.listed_in) ∧
      primaryCell (.str "France, Germany") = .str "France" ∧
      containsCommaCell (.str "France, Germany") = .boolean true ∧
      primaryCell (.str "Drama") = .str "Drama" ∧
      containsCommaCell (.str "Drama") = .boolean false ∧
      countCell (.str "Drama") = .num 1 ∧
      countCell .na = .num 0 ∧
      (∀ s, countCell (.str s) = .num ((commaCount s + 1 : Nat) : ℚ))) :=
  ⟨by decide,
   c9_primary_token_extraction noParse 2026 [row9] outRow9 (by decide)⟩

/-- C10: in every Transformer output row the movie flag holds exactly
when the extracted duration unit is min and the series flag exactly when
it is Season or Seasons, the two flags are never both true, and a missing
unit leaves both flags false. -/
theorem c10_flags_mutually_exclusive (parse : String → Option Nat) (cy : Nat)
    (l out : List Row) (h : transform_netflix_data parse cy l = some out) :
    ∀ r ∈ out,
      r.is_movie = .boolean (r.duration_unit = .str "min") ∧
      r.is_tv_show = .boolean (r.duration_unit = .str "Season"
        ∨ r.duration_unit = .str "Seasons") ∧
      ¬(r.is_movie = .boolean true ∧ r.is_tv_show = .boolean true) ∧
      (r.duration_unit = .na →
        r.is_movie = .boolean false ∧ r.is_tv_show = .boolean false) := by
  intro r hr
  obtain ⟨x, _, hx⟩ := exists_of_mem_transform h hr
  rw [← hx]
  refine ⟨rfl, rfl, ?_, ?_⟩
  · rintro ⟨hm, ht⟩
    simp only [rowStage, process_categorical_data_row, engineer_features_row,
      clean_text_columns_row, transform_dates_row] at hm ht
    have h1 := of_decide_eq_true (Cell.boolean.inj hm)
    have h2 := of_decide_eq_true (Cell.boolean.inj ht)
    rw [h1] at h2
    rcases h2 with h2 | h2 <;> simp at h2
  · intro hna
    simp only [rowStage, process_categorical_data_row, engineer_features_row,
      clean_text_columns_row, transform_dates_row] at hna ⊢
    simp [hna]

/-- C10 witness. -/
theorem c10_flags_mutually_exclusive_witness :
    (transform_netflix_data noParse 2026 [goodRow] = some outGood ∧
      outGood.headD rowNa ∈ outGood) ∧
    ((outGood.headD rowNa).is_movie
        = .boolean ((outGood.headD rowNa).duration_unit = .str "min") ∧
      (outGood.headD rowNa).is_tv_show
        = .boolean ((outGood.headD rowNa).duration_unit = .str "Season"
          ∨ (outGood.headD rowNa).duration_unit = .str "Seasons") ∧
      ¬((outGood.headD rowNa).is_movie = .boolean true ∧
        (outGood.headD rowNa).is_tv_show = .boolean true) ∧
      ((outGood.headD rowNa).duration_unit = .na →
        (outGood.headD rowNa).is_movie = .boolean false ∧
        (outGood.headD rowNa).is_tv_show = .boolean false)) :=
  ⟨⟨by decide, by decide⟩,
   c10_flags_mutually_exclusive noParse 2026 [goodRow] outGood (by decide)
     (outGood.headD rowNa) (by decide)⟩
